import Mathlib

/-!
Shallow embedding of the synergy-bridge core (Synergy protocol parser,
screen translator, HID report codec) together with proofs about the
properties claimed in the specification.

Conventions of the embedding:
- Python `bytes` values are `List Nat` with every element below 256.
- Python `int` is `Int` (arbitrary precision in both languages).
- The float arithmetic in the axis-scaling code is modelled twice: the
  translator plumbing uses the idealized exact-rational `scale_axis`
  (Python `round`, round half to even, is `pyRound`), while
  `scale_axis_f64` models the IEEE binary64 arithmetic of the source
  exactly; the two agree on small magnitudes and are proved to differ
  at large ones.
- Code that can raise an exception is modelled with `Except`: a raised
  exception is `Except.error`.
- The mutable parser keeps its buffer as explicit state; the mutable
  translator object is the `SynergyTranslator` structure passed and
  returned explicitly.
-/

deriving instance DecidableEq for Except

namespace SynergyBridge

/-! ## Event data model (src/synergy_bridge/synergy_client.py) -/

/-- Mirror of the frozen dataclass `MouseMoveEvent`. -/
structure MouseMoveEvent where
  x : Int
  y : Int
  absolute : Bool
deriving DecidableEq

/-- Mirror of the frozen dataclass `MouseButtonEvent`. -/
structure MouseButtonEvent where
  button : Int
  pressed : Bool
deriving DecidableEq

/-- Mirror of the frozen dataclass `KeyEvent`. -/
structure KeyEvent where
  keycode : Int
  modifiers : Int
  pressed : Bool
deriving DecidableEq

/-- Mirror of the frozen dataclass `ScreenTransitionEvent`. -/
structure ScreenTransitionEvent where
  screen : String
  entered : Bool
deriving DecidableEq

/-- The union `SynergyEvent` of the four event dataclasses. -/
inductive SynergyEvent where
  | mouseMove (e : MouseMoveEvent) : SynergyEvent
  | mouseButton (e : MouseButtonEvent) : SynergyEvent
  | key (e : KeyEvent) : SynergyEvent
  | screenTransition (e : ScreenTransitionEvent) : SynergyEvent
deriving DecidableEq

/-! ## Python text primitives used by `_parse_payload`

`payload.decode("utf-8")` (strict UTF-8 decoding), `str.split()`
(split on whitespace runs, dropping empty tokens; the ASCII whitespace
characters cover every payload this protocol can carry) and `int(...)`
(optional sign, decimal digits, single underscores between digits).
-/

/-- Strict UTF-8 decoding of a byte list, as Python `bytes.decode("utf-8")`:
rejects invalid start bytes, truncated sequences, bad continuation bytes,
overlong encodings, surrogates and code points above 0x10FFFF. Returns the
decoded code points as characters, or `none` (a `UnicodeDecodeError`). -/
def utf8Decode : List Nat → Option (List Char)
  | [] => some []
  | b :: rest =>
    if b < 0x80 then
      (utf8Decode rest).map (fun cs => Char.ofNat b :: cs)
    else if b < 0xC2 then none
    else if b < 0xE0 then
      match rest with
      | b1 :: rest2 =>
        if 0x80 ≤ b1 ∧ b1 < 0xC0 then
          (utf8Decode rest2).map (fun cs =>
            Char.ofNat ((b - 0xC0) * 0x40 + (b1 - 0x80)) :: cs)
        else none
      | [] => none
    else if b < 0xF0 then
      match rest with
      | b1 :: b2 :: rest2 =>
        if (0x80 ≤ b1 ∧ b1 < 0xC0) ∧ (0x80 ≤ b2 ∧ b2 < 0xC0) ∧
            0x800 ≤ (b - 0xE0) * 0x1000 + (b1 - 0x80) * 0x40 + (b2 - 0x80) ∧
            ((b - 0xE0) * 0x1000 + (b1 - 0x80) * 0x40 + (b2 - 0x80) < 0xD800 ∨
              0xE000 ≤ (b - 0xE0) * 0x1000 + (b1 - 0x80) * 0x40 + (b2 - 0x80)) then
          (utf8Decode rest2).map (fun cs =>
            Char.ofNat ((b - 0xE0) * 0x1000 + (b1 - 0x80) * 0x40 + (b2 - 0x80)) :: cs)
        else none
      | _ => none
    else if b < 0xF5 then
      match rest with
      | b1 :: b2 :: b3 :: rest2 =>
        if (0x80 ≤ b1 ∧ b1 < 0xC0) ∧ (0x80 ≤ b2 ∧ b2 < 0xC0) ∧ (0x80 ≤ b3 ∧ b3 < 0xC0) ∧
            0x10000 ≤ (b - 0xF0) * 0x40000 + (b1 - 0x80) * 0x1000 + (b2 - 0x80) * 0x40 + (b3 - 0x80) ∧
            (b - 0xF0) * 0x40000 + (b1 - 0x80) * 0x1000 + (b2 - 0x80) * 0x40 + (b3 - 0x80) ≤ 0x10FFFF then
          (utf8Decode rest2).map (fun cs =>
            Char.ofNat ((b - 0xF0) * 0x40000 + (b1 - 0x80) * 0x1000 + (b2 - 0x80) * 0x40 + (b3 - 0x80)) :: cs)
        else none
      | _ => none
    else none

/-- The ASCII whitespace characters recognized by Python `str.split()`.
Python also splits on the rarer code points 0x1C..0x1F, 0x85 and the
Unicode space category, none of which this protocol can carry in a tag
or numeric token, so the model keeps to the ASCII set. -/
def isPySpace (c : Char) : Bool :=
  c = ' ' ∨ c = '\t' ∨ c = '\n' ∨ c = '\r' ∨ c.toNat = 0x0B ∨ c.toNat = 0x0C

/-- Helper for `pySplit`: accumulates the current token (reversed). -/
def pySplitAux : List Char → List Char → List (List Char)
  | cur, [] => if cur = [] then [] else [cur.reverse]
  | cur, c :: rest =>
    if isPySpace c then
      if cur = [] then pySplitAux [] rest else cur.reverse :: pySplitAux [] rest
    else pySplitAux (c :: cur) rest

/-- Python `str.split()` with no arguments: split on runs of whitespace,
no empty tokens. -/
def pySplit (cs : List Char) : List (List Char) :=
  pySplitAux [] cs

/-- Helper for `pyInt`: digits with optional single underscores between
digits, accumulating the value. -/
def pyDigitsAux : Nat → List Char → Option Nat
  | acc, [] => some acc
  | acc, c :: rest =>
    if c.isDigit then pyDigitsAux (acc * 10 + (c.toNat - 48)) rest
    else if c = '_' then
      match rest with
      | d :: rest2 =>
        if d.isDigit then pyDigitsAux (acc * 10 + (d.toNat - 48)) rest2 else none
      | [] => none
    else none

/-- A nonempty digit sequence starting with a digit. -/
def pyDigits : List Char → Option Nat
  | [] => none
  | c :: rest => if c.isDigit then pyDigitsAux (c.toNat - 48) rest else none

/-- Python `int(token)` on a whitespace-free token: optional sign followed
by decimal digits (single underscores between digits allowed).
`none` models the raised `ValueError`. Python would also accept
non-ASCII Unicode decimal digits; the wire protocol is ASCII, so the
model keeps to ASCII digits. -/
def pyInt : List Char → Option Int
  | '+' :: rest => (pyDigits rest).map (fun n => (n : Int))
  | '-' :: rest => (pyDigits rest).map (fun n => -(n : Int))
  | cs => (pyDigits cs).map (fun n => (n : Int))

/-! ## SynergyProtocolParser (src/synergy_bridge/synergy_client.py) -/

/-- The exceptions that can escape `SynergyProtocolParser.feed`. -/
inductive ParseErr where
  | unicodeDecodeError : ParseErr
  | valueError : ParseErr
deriving DecidableEq

/-- Mirror of `SynergyProtocolParser._parse_payload`.
`Except.error` models the exceptions the Python code can raise
(`UnicodeDecodeError` from `payload.decode`, `ValueError` from `int`);
`Except.ok none` is a silently dropped frame. -/
def parsePayload (payload : List Nat) : Except ParseErr (Option SynergyEvent) :=
  match utf8Decode payload with
  | none => Except.error ParseErr.unicodeDecodeError
  | some text =>
    match pySplit text with
    | [] => Except.ok none
    | message :: args =>
      if message = "DMMV".toList then
        match args with
        | [a, b] =>
          match pyInt a, pyInt b with
          | some xv, some yv => Except.ok (some (SynergyEvent.mouseMove ⟨xv, yv, true⟩))
          | _, _ => Except.error ParseErr.valueError
        | _ => Except.ok none
      else if message = "DMMB".toList then
        match args with
        | [a, b] =>
          match pyInt a with
          | some btn =>
            Except.ok (some (SynergyEvent.mouseButton ⟨btn, decide (b = "1".toList)⟩))
          | none => Except.error ParseErr.valueError
        | _ => Except.ok none
      else if message = "DKDN".toList then
        match args with
        | [a, b] =>
          match pyInt a, pyInt b with
          | some kc, some mods => Except.ok (some (SynergyEvent.key ⟨kc, mods, true⟩))
          | _, _ => Except.error ParseErr.valueError
        | _ => Except.ok none
      else if message = "DKUP".toList then
        match args with
        | [a, b] =>
          match pyInt a, pyInt b with
          | some kc, some mods => Except.ok (some (SynergyEvent.key ⟨kc, mods, false⟩))
          | _, _ => Except.error ParseErr.valueError
        | _ => Except.ok none
      else if message = "CINN".toList then
        match args with
        | [a] => Except.ok (some (SynergyEvent.screenTransition ⟨String.mk a, true⟩))
        | _ => Except.ok none
      else if message = "COUT".toList then
        match args with
        | [a] => Except.ok (some (SynergyEvent.screenTransition ⟨String.mk a, false⟩))
        | _ => Except.ok none
      else
        Except.ok none

/-- `int.from_bytes(prefix, "big")`. -/
def fromBytesBE (bs : List Nat) : Nat :=
  bs.foldl (fun acc b => acc * 256 + b) 0

/-- The frame-extraction loop of `SynergyProtocolParser.feed`, written with
explicit fuel so that it is structurally recursive (each loop iteration
consumes at least four buffered bytes, so `buf.length` is always enough
fuel; `feedAux_fuel_eq` below shows the result does not depend on the fuel
once it is at least `buf.length`). The `ok` result is the remaining buffer
paired with the parsed events, in order; `error` models an exception
escaping `feed`. -/
def feedAux : Nat → List Nat → Except ParseErr (List Nat × List SynergyEvent)
  | 0, buf => Except.ok (buf, [])
  | fuel + 1, buf =>
    if buf.length < 4 then Except.ok (buf, [])
    else
      let frameLen := fromBytesBE (buf.take 4)
      if buf.length < 4 + frameLen then Except.ok (buf, [])
      else
        let payload := (buf.drop 4).take frameLen
        let rest := buf.drop (4 + frameLen)
        match parsePayload payload with
        | Except.error e => Except.error e
        | Except.ok none => feedAux fuel rest
        | Except.ok (some ev) =>
          match feedAux fuel rest with
          | Except.error e => Except.error e
          | Except.ok r => Except.ok (r.1, ev :: r.2)

/-- The frame-extraction loop run to completion on a buffer. -/
def feedLoop (buf : List Nat) : Except ParseErr (List Nat × List SynergyEvent) :=
  feedAux buf.length buf

/-- Mirror of `SynergyProtocolParser.feed`: append the incoming data to the
buffered bytes and extract complete frames. The parser state (the field
`_buffer`) is passed explicitly. -/
def feed (buffer data : List Nat) : Except ParseErr (List Nat × List SynergyEvent) :=
  feedLoop (buffer ++ data)

/-! ## Screen translator (src/synergy_bridge/translator.py) -/

/-- Mirror of the frozen dataclass `AbsoluteCoordinateRange`
(defaults 0, 0, 0x7FFF, 0x7FFF). -/
structure AbsoluteCoordinateRange where
  min_x : Int
  min_y : Int
  max_x : Int
  max_y : Int
deriving DecidableEq

/-- The default `AbsoluteCoordinateRange()`. -/
def defaultHidRange : AbsoluteCoordinateRange :=
  ⟨0, 0, 0x7FFF, 0x7FFF⟩

/-- Mirror of the frozen dataclass `ScreenLayout`. -/
structure ScreenLayout where
  name : String
  x : Int
  y : Int
  width : Int
  height : Int
deriving DecidableEq

/-- Mirror of `ScreenLayout.contains`: inclusive origin, exclusive
origin plus extent. -/
def ScreenLayout.contains (s : ScreenLayout) (px py : Int) : Bool :=
  decide (s.x ≤ px ∧ px < s.x + s.width ∧ s.y ≤ py ∧ py < s.y + s.height)

/-- Python `round` on an exact rational: round half to even. -/
def pyRound (q : ℚ) : Int :=
  if q - (⌊q⌋ : ℚ) < 1 / 2 then ⌊q⌋
  else if 1 / 2 < q - (⌊q⌋ : ℚ) then ⌊q⌋ + 1
  else if ⌊q⌋ % 2 = 0 then ⌊q⌋ else ⌊q⌋ + 1

/-- Idealized model of `_scale_axis` over exact rationals: `ratio =
(value - source_min) / (source_max - source_min)`, `scaled = target_min
+ ratio * (target_max - target_min)`, then
`max(min(int(round(scaled)), target_max), target_min)`. The source
computes in IEEE binary64, which departs from this exact reading at
large magnitudes; `scale_axis_f64` below models the double arithmetic
exactly and is what the axis-scaling claim is judged against. This
idealization is kept for the translator plumbing, whose judged
properties do not depend on the numeric value of a pointer report. -/
def scale_axis (value source_min source_max target_min target_max : Int) : Int :=
  if source_max = source_min then target_min
  else
    max (min (pyRound ((target_min : ℚ) +
      ((value : ℚ) - (source_min : ℚ)) / ((source_max : ℚ) - (source_min : ℚ)) *
        ((target_max : ℚ) - (target_min : ℚ)))) target_max) target_min

/-- Mirror of `ScreenLayout.map_to_hid`. -/
def ScreenLayout.map_to_hid (s : ScreenLayout) (px py : Int)
    (hid_range : AbsoluteCoordinateRange) : Int × Int :=
  (scale_axis (px - s.x) 0 (max 1 (s.width - 1)) hid_range.min_x hid_range.max_x,
   scale_axis (py - s.y) 0 (max 1 (s.height - 1)) hid_range.min_y hid_range.max_y)

/-- Mirror of the frozen dataclass `ScreenLayoutConfig`. -/
structure ScreenLayoutConfig where
  screens : List ScreenLayout
  hid_range : AbsoluteCoordinateRange
deriving DecidableEq

/-- Mirror of the frozen dataclass `HidPointerEvent`. -/
structure HidPointerEvent where
  x : Int
  y : Int
  absolute : Bool
deriving DecidableEq

/-- The state of a `SynergyTranslator` object: its configuration, mode
flag, and the two mutable fields `_current_screen` and `_last_position`. -/
structure SynergyTranslator where
  config : ScreenLayoutConfig
  use_absolute : Bool
  current_screen : Option ScreenLayout
  last_position : Option (Int × Int)
deriving DecidableEq

/-- Mirror of `SynergyTranslator.__init__`: raises `ValueError` when the
screen list is empty, otherwise the two mutable fields start as `None`. -/
def mkSynergyTranslator (config : ScreenLayoutConfig) (use_absolute : Bool) :
    Except String SynergyTranslator :=
  if config.screens = [] then
    Except.error "At least one screen layout must be configured"
  else
    Except.ok ⟨config, use_absolute, none, none⟩

/-- An element of the `List[SynergyEvent | HidPointerEvent]` that
`SynergyTranslator.translate` returns. -/
inductive TranslatorOutput where
  | event (e : SynergyEvent) : TranslatorOutput
  | pointer (e : HidPointerEvent) : TranslatorOutput
deriving DecidableEq

/-- Mirror of `SynergyTranslator._normalize_position`: an absolute event,
or any event when no last position is stored, is taken as-is; otherwise
the deltas are added to the last position. -/
def SynergyTranslator.normalize_position (t : SynergyTranslator)
    (event : MouseMoveEvent) : Int × Int :=
  match t.last_position with
  | none => (event.x, event.y)
  | some last =>
    if event.absolute then (event.x, event.y)
    else (last.1 + event.x, last.2 + event.y)

/-- Mirror of `SynergyTranslator._calculate_relative_delta`. -/
def SynergyTranslator.calculate_relative_delta (t : SynergyTranslator)
    (px py : Int) : Int × Int :=
  match t.last_position with
  | none => (0, 0)
  | some last => (px - last.1, py - last.2)

/-- Mirror of `SynergyTranslator._find_screen`: first configured screen
containing the point, in configuration order. -/
def SynergyTranslator.find_screen (t : SynergyTranslator) (px py : Int) :
    Option ScreenLayout :=
  t.config.screens.find? (fun s => s.contains px py)

/-- Mirror of `SynergyTranslator.translate_mouse_move`. Returns the new
translator state together with the emitted outputs. The transition
events and the update of `_current_screen` are guarded by the same
`screen != self._current_screen` test as in the source; the pointer
output uses the pre-call `_last_position` (relative mode) and
`_last_position` is updated at the end. -/
def SynergyTranslator.translate_mouse_move (t : SynergyTranslator)
    (event : MouseMoveEvent) : SynergyTranslator × List TranslatorOutput :=
  let p := t.normalize_position event
  match t.find_screen p.1 p.2 with
  | none => (t, [])
  | some screen =>
    let transitions : List TranslatorOutput :=
      if some screen ≠ t.current_screen then
        (match t.current_screen with
          | some cur =>
            [TranslatorOutput.event (SynergyEvent.screenTransition ⟨cur.name, false⟩)]
          | none => []) ++
        [TranslatorOutput.event (SynergyEvent.screenTransition ⟨screen.name, true⟩)]
      else []
    let t1 : SynergyTranslator :=
      if some screen ≠ t.current_screen then
        ⟨t.config, t.use_absolute, some screen, t.last_position⟩
      else t
    let pointerOut : TranslatorOutput :=
      if t.use_absolute then
        TranslatorOutput.pointer
          ⟨(screen.map_to_hid p.1 p.2 t.config.hid_range).1,
           (screen.map_to_hid p.1 p.2 t.config.hid_range).2, true⟩
      else
        TranslatorOutput.pointer
          ⟨(t.calculate_relative_delta p.1 p.2).1,
           (t.calculate_relative_delta p.1 p.2).2, false⟩
    (⟨t1.config, t1.use_absolute, t1.current_screen, some p⟩,
     transitions ++ [pointerOut])

/-- Mirror of `SynergyTranslator.translate`: mouse moves are translated,
every other event passes through unchanged. -/
def SynergyTranslator.translate (t : SynergyTranslator) (event : SynergyEvent) :
    SynergyTranslator × List TranslatorOutput :=
  match event with
  | SynergyEvent.mouseMove e => t.translate_mouse_move e
  | e => (t, [TranslatorOutput.event e])

/-! ## HID report codec (src/synergy_bridge/hid_gadget.py) -/

/-- The keyboard report-ID constant. -/
def KEYBOARD_REPORT_ID : Nat := 1

/-- The relative-mouse report-ID constant. -/
def MOUSE_REPORT_ID : Nat := 2

/-- The absolute-mouse report-ID constant. -/
def ABSOLUTE_MOUSE_REPORT_ID : Nat := 3

/-- Mirror of `_clamp`: `max(minimum, min(maximum, value))`. -/
def clamp (value minimum maximum : Int) : Int :=
  max minimum (min maximum value)

/-- Python `bytes([...])` construction: every element must be an integer
in `range(0, 256)`, otherwise a `ValueError` is raised. -/
def pyBytes (values : List Int) : Except String (List Nat) :=
  if ∀ v ∈ values, 0 ≤ v ∧ v < 256 then
    Except.ok (values.map Int.toNat)
  else
    Except.error "bytes must be in range(0, 256)"

/-- Python `value.to_bytes(2, "little")`: the value must be a non-negative
integer below 2^16, otherwise an `OverflowError` is raised. -/
def pyToBytesLE2 (value : Int) : Except String (List Nat) :=
  if 0 ≤ value ∧ value < 65536 then
    Except.ok [value.toNat % 256, value.toNat / 256]
  else
    Except.error "int too big to convert"

/-- Mirror of `build_keyboard_report`: reject more than six keys, pad the
key list with zeros to six entries, and build
`bytes([KEYBOARD_REPORT_ID, modifiers & 0xFF, 0x00, *padded])`. -/
def build_keyboard_report (modifiers : Int) (keys : List Int) :
    Except String (List Nat) :=
  if keys.length > 6 then
    Except.error "Keyboard reports support at most six keys"
  else
    pyBytes ((KEYBOARD_REPORT_ID : Int) :: (modifiers % 256) :: 0 ::
      (keys ++ List.replicate (6 - keys.length) 0))

/-- Mirror of `build_absolute_mouse_report`: clamp each coordinate to
`[0, max]` and append the two little-endian 16-bit encodings to
`bytes([ABSOLUTE_MOUSE_REPORT_ID, buttons & 0xFF])`. -/
def build_absolute_mouse_report (buttons px py max_x max_y : Int) :
    Except String (List Nat) :=
  match pyToBytesLE2 (clamp px 0 max_x), pyToBytesLE2 (clamp py 0 max_y) with
  | Except.ok xb, Except.ok yb =>
    Except.ok ([ABSOLUTE_MOUSE_REPORT_ID, (buttons % 256).toNat] ++ xb ++ yb)
  | Except.error e, _ => Except.error e
  | _, Except.error e => Except.error e

/-! ## Concrete fixtures used by the scenario theorems and witnesses -/

/-- ASCII encoding of a payload string as bytes. -/
def asciiBytes (s : String) : List Nat :=
  s.toList.map Char.toNat

/-- A protocol frame around a short payload: 4-byte big-endian length
prefix followed by the payload. -/
def frameBytes (payload : List Nat) : List Nat :=
  [0, 0, 0, payload.length] ++ payload

/-- A frame whose recognized tag carries non-numeric arguments. -/
def badNumericFrame : List Nat :=
  frameBytes (asciiBytes "DMMV a b")

/-- A frame whose payload is not valid UTF-8. -/
def badUtf8Frame : List Nat :=
  frameBytes [0xFF]

/-- A well-formed pointer-move frame. -/
def goodMoveFrame : List Nat :=
  frameBytes (asciiBytes "DMMV 1 2")

/-- A two-frame stream on which the parser raises no exception. -/
def validStream : List Nat :=
  goodMoveFrame ++ frameBytes (asciiBytes "CINN primary")

/-- The single configured screen of the specification scenario:
`primary` at origin (0,0), size 1920x1080. -/
def primaryScreen : ScreenLayout :=
  ⟨"primary", 0, 0, 1920, 1080⟩

/-- The scenario configuration: one screen, default HID range. -/
def demoConfig : ScreenLayoutConfig :=
  ⟨[primaryScreen], defaultHidRange⟩

/-- A freshly constructed translator over `demoConfig` in absolute mode. -/
def demoTranslator : SynergyTranslator :=
  ⟨demoConfig, true, none, none⟩

/-- Screen A of the overlapping-layout counterexample. -/
def screenA : ScreenLayout :=
  ⟨"A", 0, 0, 10, 10⟩

/-- Screen B of the overlapping-layout counterexample: overlaps A on
x in [5, 10). -/
def screenB : ScreenLayout :=
  ⟨"B", 5, 0, 10, 10⟩

/-- A configuration with two overlapping screens, A before B. -/
def overlapConfig : ScreenLayoutConfig :=
  ⟨[screenA, screenB], defaultHidRange⟩

/-- A fresh translator over the overlapping configuration. -/
def overlapStart : SynergyTranslator :=
  ⟨overlapConfig, true, none, none⟩

/-- A screen disjoint from `screenA`, used by the transition witness. -/
def screenD : ScreenLayout :=
  ⟨"D", 10, 0, 10, 10⟩

/-- A configuration with two disjoint screens. -/
def disjointConfig : ScreenLayoutConfig :=
  ⟨[screenA, screenD], defaultHidRange⟩

/-- A configuration whose HID coordinate range is degenerate
(max below min on both axes). -/
def badRangeConfig : ScreenLayoutConfig :=
  ⟨[primaryScreen], ⟨0, 0, -1, -1⟩⟩

/-- The pointer-move frame of the specification scenario. -/
def dmmvFrame : List Nat :=
  frameBytes (asciiBytes "DMMV 1024 768")

/-! ## IEEE binary64 model of the float arithmetic in `_scale_axis`

Python computes `ratio = (value - source_min) / (source_max -
source_min)` (true division of ints: the correctly rounded binary64
quotient, raising OverflowError when it overflows) and `scaled =
target_min + ratio * (target_max - target_min)` (each int operand is
converted with `float(int)`, which raises OverflowError past the
binary64 range, and each float operation rounds half to even, an
overflowing product or sum becoming an infinity), then
`int(round(scaled))`, where `round` of an infinity raises
OverflowError. A float is represented as a finite dyadic value or an
infinity; NaN cannot arise in `_scale_axis`, since division by zero is
guarded and no infinity is ever multiplied or cancelled. -/

/-- Fuel-based count of binary digits of a natural number (0 for 0);
fuel `n` always suffices since the count is at most `n`. -/
def bitlenAux : Nat → Nat → Nat
  | 0, _ => 0
  | fuel + 1, n => if n = 0 then 0 else bitlenAux fuel (n / 2) + 1

/-- Count of binary digits of a natural number. -/
def bitlen (n : Nat) : Nat :=
  bitlenAux n n

/-- Decide whether `a / d ≥ 2^e` for naturals `a`, `d` and an integer
exponent `e`. -/
def gePow2 (a d : Nat) (e : Int) : Bool :=
  if 0 ≤ e then decide (d * 2 ^ e.toNat ≤ a)
  else decide (d ≤ a * 2 ^ (-e).toNat)

/-- The nearest integer to `N / D`, ties to even. -/
def rneDiv (N D : Nat) : Nat :=
  if 2 * (N % D) < D then N / D
  else if D < 2 * (N % D) then N / D + 1
  else if (N / D) % 2 = 0 then N / D else N / D + 1

/-- A binary64 value as `_scale_axis` can produce it: a finite dyadic
value `m * 2^e`, or an infinity with a sign. -/
inductive F64 where
  | finite (m : Int) (e : Int) : F64
  | inf (pos : Bool) : F64
deriving DecidableEq

/-- Round the rational `n / d` (`d ≠ 0`) half to even onto the binary64
grid: the grid unit is `2^(E-52)` where `2^E ≤ |n/d| < 2^(E+1)`, but
never below the subnormal unit `2^-1074`; a rounded magnitude reaching
`2^1024` overflows to an infinity. -/
def f64OfRat (n : Int) (d : Nat) : F64 :=
  if n = 0 then F64.finite 0 0
  else
    let a := n.natAbs
    let L : Int := (bitlen a : Int) - (bitlen d : Int)
    let E : Int := if gePow2 a d L then L else L - 1
    let g : Int := max (E - 52) (-1074)
    let m : Nat :=
      if 0 ≤ g then rneDiv a (d * 2 ^ g.toNat)
      else rneDiv (a * 2 ^ (-g).toNat) d
    if gePow2 m 1 (1024 - g) then F64.inf (decide (0 ≤ n))
    else if 0 ≤ n then F64.finite (m : Int) g
    else F64.finite (-(m : Int)) g

/-- Round a dyadic value `m * 2^e` onto the binary64 grid. -/
def f64OfDyadic (m : Int) (e : Int) : F64 :=
  if 0 ≤ e then f64OfRat (m * 2 ^ e.toNat) 1
  else f64OfRat m (2 ^ (-e).toNat)

/-- Binary64 multiplication, round half to even; an overflowing product
is an infinity. -/
def f64Mul : F64 → F64 → F64
  | F64.finite m1 e1, F64.finite m2 e2 => f64OfDyadic (m1 * m2) (e1 + e2)
  | F64.finite m1 _, F64.inf p => F64.inf (decide (0 ≤ m1) == p)
  | F64.inf p, F64.finite m2 _ => F64.inf (decide (0 ≤ m2) == p)
  | F64.inf p, F64.inf q => F64.inf (p == q)

/-- Binary64 addition, round half to even; an overflowing sum is an
infinity (same-signed infinities propagate; the cancelling case cannot
arise in `_scale_axis`). -/
def f64Add : F64 → F64 → F64
  | F64.finite m1 e1, F64.finite m2 e2 =>
    if e1 ≤ e2 then f64OfDyadic (m1 + m2 * 2 ^ (e2 - e1).toNat) e1
    else f64OfDyadic (m1 * 2 ^ (e1 - e2).toNat + m2) e2
  | F64.inf p, _ => F64.inf p
  | F64.finite _ _, F64.inf p => F64.inf p

/-- Python true division of two ints: the correctly rounded binary64
quotient, raising OverflowError when it overflows (the denominator is
never zero in `_scale_axis`, being guarded by the degenerate case). -/
def pyIntDiv (a b : Int) : Except String F64 :=
  match (if 0 ≤ b then f64OfRat a b.natAbs else f64OfRat (-a) b.natAbs) with
  | F64.inf _ => Except.error "integer division result too large for a float"
  | v => Except.ok v

/-- Python `float(int)`: round half to even, OverflowError past the
binary64 range. -/
def pyFloatOfInt (a : Int) : Except String F64 :=
  match f64OfRat a 1 with
  | F64.inf _ => Except.error "int too large to convert to float"
  | v => Except.ok v

/-- Python `round` on a binary64 value: half to even onto an integer;
OverflowError on an infinity. -/
def pyRoundF64 : F64 → Except String Int
  | F64.finite m e =>
    if 0 ≤ e then Except.ok (m * 2 ^ e.toNat)
    else if 0 ≤ m then Except.ok ((rneDiv m.natAbs (2 ^ (-e).toNat) : Nat) : Int)
    else Except.ok (-((rneDiv m.natAbs (2 ^ (-e).toNat) : Nat) : Int))
  | F64.inf _ => Except.error "cannot convert float infinity to integer"

/-- Mirror of `_scale_axis` with its IEEE binary64 arithmetic modelled
exactly: the guarded degenerate case, then `ratio = (value -
source_min) / (source_max - source_min)` as the correctly rounded
double quotient, `scaled = target_min + ratio * (target_max -
target_min)` with the int operands converted to doubles first at the
operation that consumes them and every operation rounded half to even,
`int(round(scaled))`, and the final clamping `max(min(.., target_max),
target_min)`. An OverflowError raised by the division, a conversion,
or `round` of an infinite product escapes as an error. -/
def scale_axis_f64 (value source_min source_max target_min target_max : Int) :
    Except String Int :=
  if source_max = source_min then Except.ok target_min
  else
    match pyIntDiv (value - source_min) (source_max - source_min) with
    | Except.error e => Except.error e
    | Except.ok ratio =>
      match pyFloatOfInt (target_max - target_min) with
      | Except.error e => Except.error e
      | Except.ok span =>
        match pyFloatOfInt target_min with
        | Except.error e => Except.error e
        | Except.ok tmin =>
          match pyRoundF64 (f64Add tmin (f64Mul ratio span)) with
          | Except.error e => Except.error e
          | Except.ok rounded =>
            Except.ok (max (min rounded target_max) target_min)

/-! ## Shared codec lemmas -/

/-- Successful path of `build_keyboard_report`: with at most six keys that
are all byte values, the report is the id byte, the masked modifiers, a
zero byte, and the keys padded with zeros to six entries. -/
theorem build_keyboard_report_ok_of_valid (modifiers : Int) (keys : List Int)
    (hlen : keys.length ≤ 6) (hkeys : ∀ k ∈ keys, 0 ≤ k ∧ k < 256) :
    build_keyboard_report modifiers keys =
      Except.ok (KEYBOARD_REPORT_ID :: (modifiers % 256).toNat :: 0 ::
        (keys.map Int.toNat ++ List.replicate (6 - keys.length) 0)) := by
  unfold build_keyboard_report
  rw [if_neg (by omega)]
  unfold pyBytes
  rw [if_pos ?valid]
  case valid =>
    intro v hv
    simp only [List.mem_cons, List.mem_append, List.mem_replicate] at hv
    rcases hv with rfl | rfl | rfl | hv | ⟨-, rfl⟩
    · refine ⟨by norm_num [KEYBOARD_REPORT_ID], by norm_num [KEYBOARD_REPORT_ID]⟩
    · exact ⟨Int.emod_nonneg _ (by norm_num), Int.emod_lt_of_pos _ (by norm_num)⟩
    · norm_num
    · exact hkeys v hv
    · norm_num
  · simp [List.map_append, List.map_replicate, KEYBOARD_REPORT_ID]

/-! ## C1 -/

/-- C1 counterexample: on modifiers 0x02 and two keys the report has nine
bytes, not the eight the claim states (the layout
reportId, modifierMask, 0x00, key1..key6 has nine fields; the test
test_build_keyboard_report_formats_bytes asserts exactly these nine
bytes). -/
theorem c1_counterexample :
    build_keyboard_report 2 [4, 5] = Except.ok [1, 2, 0, 4, 5, 0, 0, 0, 0] ∧
    ([1, 2, 0, 4, 5, 0, 0, 0, 0] : List Nat).length ≠ 8 := by
  exact ⟨by decide, by decide⟩

/-- C1 (amended): for every modifier mask (a byte) and every list of at
most six byte-valued key codes, `build_keyboard_report` returns exactly
nine bytes laid out reportId, modifierMask, 0x00, key1..key6 with unused
key slots zero-padded, and the first byte is the keyboard report-ID
constant. -/
theorem c1_keyboard_report_layout (modifiers : Int) (keys : List Int)
    (hm0 : 0 ≤ modifiers) (hm1 : modifiers < 256)
    (hlen : keys.length ≤ 6) (hkeys : ∀ k ∈ keys, 0 ≤ k ∧ k < 256) :
    build_keyboard_report modifiers keys =
      Except.ok (KEYBOARD_REPORT_ID :: modifiers.toNat :: 0 ::
        (keys.map Int.toNat ++ List.replicate (6 - keys.length) 0)) ∧
    (KEYBOARD_REPORT_ID :: modifiers.toNat :: 0 ::
        (keys.map Int.toNat ++ List.replicate (6 - keys.length) 0)).length = 9 := by
  constructor
  · rw [build_keyboard_report_ok_of_valid modifiers keys hlen hkeys,
      Int.emod_eq_of_lt hm0 hm1]
  · simp [List.length_append, List.length_replicate, List.length_map]
    omega

/-- C1 witness. -/
theorem c1_witness :
    build_keyboard_report 2 [4, 5] =
      Except.ok (KEYBOARD_REPORT_ID :: (2 : Int).toNat :: 0 ::
        ([4, 5].map Int.toNat ++ List.replicate (6 - ([4, 5] : List Int).length) 0)) ∧
    (KEYBOARD_REPORT_ID :: (2 : Int).toNat :: 0 ::
        ([4, 5].map Int.toNat ++ List.replicate (6 - ([4, 5] : List Int).length) 0)).length = 9 :=
  c1_keyboard_report_layout 2 [4, 5] (by decide) (by decide) (by decide) (by decide)

/-! ## C9 -/

/-- C9: with more than six keys `build_keyboard_report` raises the
InvalidInput condition (a ValueError, never silent truncation), and with
at most six byte-valued key codes it succeeds. -/
theorem c9_key_count_check :
    (∀ (modifiers : Int) (keys : List Int), 6 < keys.length →
      build_keyboard_report modifiers keys =
        Except.error "Keyboard reports support at most six keys") ∧
    (∀ (modifiers : Int) (keys : List Int), keys.length ≤ 6 →
      (∀ k ∈ keys, 0 ≤ k ∧ k < 256) →
      ∃ report, build_keyboard_report modifiers keys = Except.ok report) := by
  constructor
  · intro modifiers keys h
    unfold build_keyboard_report
    rw [if_pos (by omega)]
  · intro modifiers keys hlen hkeys
    exact ⟨_, build_keyboard_report_ok_of_valid modifiers keys hlen hkeys⟩

/-- C9 witness. -/
theorem c9_witness :
    build_keyboard_report 0 [1, 2, 3, 4, 5, 6, 7] =
      Except.error "Keyboard reports support at most six keys" ∧
    ∃ report, build_keyboard_report 0 [4, 5] = Except.ok report :=
  ⟨c9_key_count_check.1 0 [1, 2, 3, 4, 5, 6, 7] (by decide),
   c9_key_count_check.2 0 [4, 5] (by decide) (by decide)⟩

/-! ## C7 -/

/-- C7: for every integer button mask and coordinates, with a 16-bit
configured maximum per axis, `build_absolute_mouse_report` returns the
six bytes reportId, buttonMask, xLow, xHigh, yLow, yHigh where the
little-endian decoded coordinates equal the clamp of the input to
[0, configuredMax] (so they are never above the configured max nor below
zero); in particular the report for buttons=2, x=40000, y=-5,
max_x=30000, max_y=20000 is [reportId, 2, 0x30, 0x75, 0, 0]. -/
theorem c7_absolute_report_clamped :
    (∀ buttons px py max_x max_y : Int,
      0 ≤ max_x → max_x ≤ 65535 → 0 ≤ max_y → max_y ≤ 65535 →
      build_absolute_mouse_report buttons px py max_x max_y =
        Except.ok [ABSOLUTE_MOUSE_REPORT_ID, (buttons % 256).toNat,
          (clamp px 0 max_x).toNat % 256, (clamp px 0 max_x).toNat / 256,
          (clamp py 0 max_y).toNat % 256, (clamp py 0 max_y).toNat / 256] ∧
      (clamp px 0 max_x).toNat % 256 + 256 * ((clamp px 0 max_x).toNat / 256) =
        (clamp px 0 max_x).toNat ∧
      (clamp py 0 max_y).toNat % 256 + 256 * ((clamp py 0 max_y).toNat / 256) =
        (clamp py 0 max_y).toNat ∧
      0 ≤ clamp px 0 max_x ∧ clamp px 0 max_x ≤ max_x ∧
      0 ≤ clamp py 0 max_y ∧ clamp py 0 max_y ≤ max_y ∧
      [ABSOLUTE_MOUSE_REPORT_ID, (buttons % 256).toNat,
        (clamp px 0 max_x).toNat % 256, (clamp px 0 max_x).toNat / 256,
        (clamp py 0 max_y).toNat % 256, (clamp py 0 max_y).toNat / 256].length = 6) ∧
    build_absolute_mouse_report 2 40000 (-5) 30000 20000 =
      Except.ok [3, 2, 0x30, 0x75, 0, 0] := by
  constructor
  · intro buttons px py max_x max_y hx0 hx1 hy0 hy1
    have hcx0 : 0 ≤ clamp px 0 max_x := by unfold clamp; omega
    have hcx1 : clamp px 0 max_x ≤ max_x := by unfold clamp; omega
    have hcy0 : 0 ≤ clamp py 0 max_y := by unfold clamp; omega
    have hcy1 : clamp py 0 max_y ≤ max_y := by unfold clamp; omega
    refine ⟨?_, Nat.mod_add_div _ _, Nat.mod_add_div _ _, hcx0, hcx1, hcy0, hcy1, rfl⟩
    unfold build_absolute_mouse_report pyToBytesLE2
    rw [if_pos ⟨hcx0, by omega⟩, if_pos ⟨hcy0, by omega⟩]
    simp
  · decide

/-- C7 witness. -/
theorem c7_witness :
    build_absolute_mouse_report 2 40000 (-5) 30000 20000 =
      Except.ok [ABSOLUTE_MOUSE_REPORT_ID, ((2 : Int) % 256).toNat,
        (clamp 40000 0 30000).toNat % 256, (clamp 40000 0 30000).toNat / 256,
        (clamp (-5) 0 20000).toNat % 256, (clamp (-5) 0 20000).toNat / 256] ∧
    (clamp 40000 0 30000).toNat % 256 + 256 * ((clamp 40000 0 30000).toNat / 256) =
      (clamp 40000 0 30000).toNat ∧
    (clamp (-5) 0 20000).toNat % 256 + 256 * ((clamp (-5) 0 20000).toNat / 256) =
      (clamp (-5) 0 20000).toNat ∧
    0 ≤ clamp 40000 0 30000 ∧ clamp 40000 0 30000 ≤ 30000 ∧
    0 ≤ clamp (-5) 0 20000 ∧ clamp (-5) 0 20000 ≤ 20000 ∧
    [ABSOLUTE_MOUSE_REPORT_ID, ((2 : Int) % 256).toNat,
      (clamp 40000 0 30000).toNat % 256, (clamp 40000 0 30000).toNat / 256,
      (clamp (-5) 0 20000).toNat % 256, (clamp (-5) 0 20000).toNat / 256].length = 6 :=
  c7_absolute_report_clamped.1 2 40000 (-5) 30000 20000
    (by decide) (by decide) (by decide) (by decide)

/-! ## C2 -/

/-- C2 evaluation: a frame whose recognized tag DMMV carries the
non-numeric arguments a and b makes `feed` raise ValueError, and a frame
whose payload byte 0xFF is not valid UTF-8 makes `feed` raise
UnicodeDecodeError; in both cases the exception escapes `feed` instead
of the frame being dropped. -/
theorem c2_exception_escapes_feed :
    feed [] badNumericFrame = Except.error ParseErr.valueError ∧
    feed [] badUtf8Frame = Except.error ParseErr.unicodeDecodeError := by
  exact ⟨by decide, by decide⟩

/-! ## C4 -/

/-- C4 counterexample: a relative move with deltas (5, 7) on a fresh
translator (no stored position) normalizes to (5, 7), not to (0, 0). -/
theorem c4_counterexample :
    demoTranslator.last_position = none ∧
    (⟨5, 7, false⟩ : MouseMoveEvent).absolute = false ∧
    demoTranslator.normalize_position ⟨5, 7, false⟩ = (5, 7) ∧
    demoTranslator.normalize_position ⟨5, 7, false⟩ ≠ ((0 : Int), (0 : Int)) := by
  exact ⟨by decide, by decide, by decide, by decide⟩

/-- C4 (amended): when the translator receives a relative pointer-move
event and no previous absolute position is stored, the normalized
sender-space position equals the event deltas (x, y) themselves, that
is, the deltas applied to the origin (0, 0). -/
theorem c4_cold_start_uses_event_deltas (t : SynergyTranslator)
    (e : MouseMoveEvent) (habs : e.absolute = false)
    (hlast : t.last_position = none) :
    t.normalize_position e = (e.x, e.y) := by
  simp [SynergyTranslator.normalize_position, hlast]

/-- C4 witness. -/
theorem c4_witness :
    demoTranslator.normalize_position ⟨9, 11, false⟩ = (9, 11) :=
  c4_cold_start_uses_event_deltas demoTranslator ⟨9, 11, false⟩ rfl rfl

/-! ## C8 -/

/-- C8 counterexample: a configuration with a degenerate HID coordinate
range (max below min on both axes) is accepted by the translator
constructor; only the empty screen list is checked. -/
theorem c8_counterexample :
    badRangeConfig.hid_range.max_x < badRangeConfig.hid_range.min_x ∧
    badRangeConfig.hid_range.max_y < badRangeConfig.hid_range.min_y ∧
    mkSynergyTranslator badRangeConfig true =
      Except.ok ⟨badRangeConfig, true, none, none⟩ := by
  exact ⟨by decide, by decide, by decide⟩

/-- C8 (amended): constructing the translator fails exactly when the
screen list is empty; every non-empty screen list is accepted, with no
check of the coordinate ranges. -/
theorem c8_construction_checks_only_empty :
    (∀ (config : ScreenLayoutConfig) (u : Bool), config.screens = [] →
      mkSynergyTranslator config u =
        Except.error "At least one screen layout must be configured") ∧
    (∀ (config : ScreenLayoutConfig) (u : Bool), config.screens ≠ [] →
      mkSynergyTranslator config u = Except.ok ⟨config, u, none, none⟩) := by
  constructor
  · intro config u h
    simp [mkSynergyTranslator, h]
  · intro config u h
    simp [mkSynergyTranslator, h]

/-- C8 witness. -/
theorem c8_witness :
    mkSynergyTranslator ⟨[], defaultHidRange⟩ true =
      Except.error "At least one screen layout must be configured" ∧
    mkSynergyTranslator demoConfig false =
      Except.ok ⟨demoConfig, false, none, none⟩ :=
  ⟨c8_construction_checks_only_empty.1 ⟨[], defaultHidRange⟩ true rfl,
   c8_construction_checks_only_empty.2 demoConfig false (by decide)⟩

/-! ## C10 -/

/-- C10: a pointer move whose normalized point is contained in no
configured screen translates to the empty output and leaves the
translator state (current screen and last position included) unchanged. -/
theorem c10_outside_point_is_noop (t : SynergyTranslator) (e : MouseMoveEvent)
    (h : ∀ s ∈ t.config.screens,
      s.contains (t.normalize_position e).1 (t.normalize_position e).2 = false) :
    t.translate (SynergyEvent.mouseMove e) = (t, []) := by
  have hfind : t.find_screen (t.normalize_position e).1
      (t.normalize_position e).2 = none := by
    unfold SynergyTranslator.find_screen
    exact List.find?_eq_none.mpr (fun s hs => by simp [h s hs])
  simp [SynergyTranslator.translate, SynergyTranslator.translate_mouse_move, hfind]

/-- C10 witness. -/
theorem c10_witness :
    demoTranslator.translate (SynergyEvent.mouseMove ⟨5000, 5000, true⟩) =
      (demoTranslator, []) :=
  c10_outside_point_is_noop demoTranslator ⟨5000, 5000, true⟩ (by decide)

/-! ## C5 -/

/-- C5 counterexample: with the overlapping layout [A, B], after moving
to (12, 0) the stored current screen is B; the next move to (6, 1) has
its normalized point inside B (the stored current screen), yet the
translation emits ScreenEdge events (first ScreenEdge(B, false)),
because the first matching screen in configuration order is A. -/
theorem c5_counterexample :
    (overlapStart.translate_mouse_move ⟨12, 0, true⟩).1.current_screen =
      some screenB ∧
    screenB.contains 6 1 = true ∧
    (((overlapStart.translate_mouse_move ⟨12, 0, true⟩).1.translate_mouse_move
        ⟨6, 1, true⟩).2).head? =
      some (TranslatorOutput.event (SynergyEvent.screenTransition ⟨"B", false⟩)) := by
  exact ⟨by decide, by decide, by decide⟩

/-- C5 (amended): for every pointer move whose first matching configured
screen (in configuration order) is B while the stored current screen is
a different screen A, the translation emits exactly ScreenEdge(A, false),
then ScreenEdge(B, true), then one pointer report, in that order; and
whenever the first matching screen equals the stored current screen, the
translation emits no ScreenEdge event, only one pointer report. -/
theorem c5_first_match_transitions :
    (∀ (t : SynergyTranslator) (e : MouseMoveEvent) (A B : ScreenLayout),
      t.current_screen = some A →
      t.find_screen (t.normalize_position e).1 (t.normalize_position e).2 =
        some B →
      A ≠ B →
      ∃ pe : HidPointerEvent,
        (t.translate_mouse_move e).2 =
          [TranslatorOutput.event (SynergyEvent.screenTransition ⟨A.name, false⟩),
           TranslatorOutput.event (SynergyEvent.screenTransition ⟨B.name, true⟩),
           TranslatorOutput.pointer pe]) ∧
    (∀ (t : SynergyTranslator) (e : MouseMoveEvent) (C : ScreenLayout),
      t.current_screen = some C →
      t.find_screen (t.normalize_position e).1 (t.normalize_position e).2 =
        some C →
      ∃ pe : HidPointerEvent,
        (t.translate_mouse_move e).2 = [TranslatorOutput.pointer pe]) := by
  constructor
  · intro t e A B hcur hfind hne
    by_cases hu : t.use_absolute
    · refine ⟨⟨(B.map_to_hid (t.normalize_position e).1 (t.normalize_position e).2
          t.config.hid_range).1,
        (B.map_to_hid (t.normalize_position e).1 (t.normalize_position e).2
          t.config.hid_range).2, true⟩, ?_⟩
      simp [SynergyTranslator.translate_mouse_move, hfind, hcur, Ne.symm hne, hu]
    · refine ⟨⟨(t.calculate_relative_delta (t.normalize_position e).1
          (t.normalize_position e).2).1,
        (t.calculate_relative_delta (t.normalize_position e).1
          (t.normalize_position e).2).2, false⟩, ?_⟩
      simp [SynergyTranslator.translate_mouse_move, hfind, hcur, Ne.symm hne, hu]
  · intro t e C hcur hfind
    by_cases hu : t.use_absolute
    · refine ⟨⟨(C.map_to_hid (t.normalize_position e).1 (t.normalize_position e).2
          t.config.hid_range).1,
        (C.map_to_hid (t.normalize_position e).1 (t.normalize_position e).2
          t.config.hid_range).2, true⟩, ?_⟩
      simp [SynergyTranslator.translate_mouse_move, hfind, hcur, hu]
    · refine ⟨⟨(t.calculate_relative_delta (t.normalize_position e).1
          (t.normalize_position e).2).1,
        (t.calculate_relative_delta (t.normalize_position e).1
          (t.normalize_position e).2).2, false⟩, ?_⟩
      simp [SynergyTranslator.translate_mouse_move, hfind, hcur, hu]

/-! ## Parser stream lemmas for C3 -/

/-- The fuel given to `feedAux` is irrelevant once it is at least the
length of the buffer: each iteration consumes at least four bytes. -/
theorem feedAux_fuel_eq (f1 f2 : Nat) (buf : List Nat)
    (h1 : buf.length ≤ f1) (h2 : buf.length ≤ f2) :
    feedAux f1 buf = feedAux f2 buf := by
  induction f1 generalizing f2 buf with
  | zero =>
    have hb : buf.length < 4 := by omega
    cases f2 with
    | zero => rfl
    | succ m => simp [feedAux, hb]
  | succ n ih =>
    cases f2 with
    | zero =>
      have hb : buf.length < 4 := by omega
      simp [feedAux, hb]
    | succ m =>
      by_cases hb : buf.length < 4
      · simp [feedAux, hb]
      · by_cases hlen : buf.length < 4 + fromBytesBE (buf.take 4)
        · simp [feedAux, hb, hlen]
        · have hr := ih m (buf.drop (4 + fromBytesBE (buf.take 4)))
            (by simp [List.length_drop]; omega) (by simp [List.length_drop]; omega)
          simp [feedAux, hb, hlen, hr]

/-- One unfolding of the frame-extraction loop. -/
theorem feedLoop_unfold (buf : List Nat) :
    feedLoop buf =
      if buf.length < 4 then Except.ok (buf, [])
      else if buf.length < 4 + fromBytesBE (buf.take 4) then Except.ok (buf, [])
      else
        match parsePayload ((buf.drop 4).take (fromBytesBE (buf.take 4))) with
        | Except.error e => Except.error e
        | Except.ok none => feedLoop (buf.drop (4 + fromBytesBE (buf.take 4)))
        | Except.ok (some ev) =>
          match feedLoop (buf.drop (4 + fromBytesBE (buf.take 4))) with
          | Except.error e => Except.error e
          | Except.ok r => Except.ok (r.1, ev :: r.2) := by
  by_cases hc : buf.length < 4
  · rw [if_pos hc]
    unfold feedLoop
    cases hb : buf.length with
    | zero => rfl
    | succ n => simp [feedAux, hc]
  · rw [if_neg hc]
    by_cases hlen : buf.length < 4 + fromBytesBE (buf.take 4)
    · rw [if_pos hlen]
      unfold feedLoop
      cases hb : buf.length with
      | zero => exact (hc (by omega)).elim
      | succ n => simp [feedAux, hc, hlen]
    · rw [if_neg hlen]
      unfold feedLoop
      cases hb : buf.length with
      | zero => exact (hc (by omega)).elim
      | succ n =>
        have hr := feedAux_fuel_eq n (buf.drop (4 + fromBytesBE (buf.take 4))).length
          (buf.drop (4 + fromBytesBE (buf.take 4)))
          (by simp [List.length_drop]; omega) le_rfl
        simp [feedAux, hc, hlen, hr]

/-- Loop on a buffer shorter than a length prefix: nothing happens. -/
theorem feedLoop_short (buf : List Nat) (h : buf.length < 4) :
    feedLoop buf = Except.ok (buf, []) := by
  rw [feedLoop_unfold, if_pos h]

/-- Loop on a buffer with an incomplete frame: nothing happens. -/
theorem feedLoop_incomplete (buf : List Nat) (h1 : ¬ buf.length < 4)
    (h2 : buf.length < 4 + fromBytesBE (buf.take 4)) :
    feedLoop buf = Except.ok (buf, []) := by
  rw [feedLoop_unfold, if_neg h1, if_pos h2]

/-- Loop on a buffer holding at least one complete frame: parse the head
frame and continue on the remainder. -/
theorem feedLoop_frame (buf : List Nat) (h1 : ¬ buf.length < 4)
    (h2 : ¬ buf.length < 4 + fromBytesBE (buf.take 4)) :
    feedLoop buf =
      match parsePayload ((buf.drop 4).take (fromBytesBE (buf.take 4))) with
      | Except.error e => Except.error e
      | Except.ok none => feedLoop (buf.drop (4 + fromBytesBE (buf.take 4)))
      | Except.ok (some ev) =>
        match feedLoop (buf.drop (4 + fromBytesBE (buf.take 4))) with
        | Except.error e => Except.error e
        | Except.ok r => Except.ok (r.1, ev :: r.2) := by
  rw [feedLoop_unfold, if_neg h1, if_neg h2]

/-- Streaming decomposition: when the loop succeeds on `a` leaving
remainder `r`, running the loop on `a ++ b` is the same as running it on
`r ++ b` with the events of `a` prepended. -/
theorem feedLoop_append (a b r : List Nat) (evs : List SynergyEvent)
    (h : feedLoop a = Except.ok (r, evs)) :
    feedLoop (a ++ b) =
      (feedLoop (r ++ b)).map (fun p => (p.1, evs ++ p.2)) := by
  by_cases h1 : a.length < 4
  · rw [feedLoop_short a h1] at h
    obtain ⟨rfl, rfl⟩ : a = r ∧ [] = evs := by simpa using h
    cases hx : feedLoop (a ++ b) <;> simp [Except.map]
  · by_cases h2 : a.length < 4 + fromBytesBE (a.take 4)
    · rw [feedLoop_incomplete a h1 h2] at h
      obtain ⟨rfl, rfl⟩ : a = r ∧ [] = evs := by simpa using h
      cases hx : feedLoop (a ++ b) <;> simp [Except.map]
    · have ha4 : 4 ≤ a.length := Nat.le_of_not_lt h1
      have hflen : 4 + fromBytesBE (a.take 4) ≤ a.length := Nat.le_of_not_lt h2
      have htake : (a ++ b).take 4 = a.take 4 :=
        List.take_append_of_le_length ha4
      have hdrop4 : (a ++ b).drop 4 = a.drop 4 ++ b :=
        List.drop_append_of_le_length ha4
      have hpay : ((a ++ b).drop 4).take (fromBytesBE ((a ++ b).take 4)) =
          (a.drop 4).take (fromBytesBE (a.take 4)) := by
        rw [htake, hdrop4,
          List.take_append_of_le_length (by simp [List.length_drop]; omega)]
      have hrest : (a ++ b).drop (4 + fromBytesBE ((a ++ b).take 4)) =
          a.drop (4 + fromBytesBE (a.take 4)) ++ b := by
        rw [htake, List.drop_append_of_le_length hflen]
      have h1' : ¬ (a ++ b).length < 4 := by simp [List.length_append]; omega
      have h2' : ¬ (a ++ b).length < 4 + fromBytesBE ((a ++ b).take 4) := by
        rw [htake]; simp [List.length_append]; omega
      rw [feedLoop_frame a h1 h2] at h
      rw [feedLoop_frame (a ++ b) h1' h2']
      simp only [hpay, hrest]
      cases hp : parsePayload ((a.drop 4).take (fromBytesBE (a.take 4))) with
      | error e =>
        rw [hp] at h
        simp at h
      | ok oev =>
        rw [hp] at h
        cases oev with
        | none =>
          exact feedLoop_append (a.drop (4 + fromBytesBE (a.take 4))) b r evs h
        | some ev =>
          have h' : (match feedLoop (a.drop (4 + fromBytesBE (a.take 4))) with
              | Except.error e => Except.error e
              | Except.ok q => Except.ok (q.1, ev :: q.2)) =
              Except.ok (r, evs) := h
          clear h
          cases hrec : feedLoop (a.drop (4 + fromBytesBE (a.take 4))) with
          | error e =>
            rw [hrec] at h'
            simp at h'
          | ok q =>
            rw [hrec] at h'
            obtain ⟨hr, hev⟩ : q.1 = r ∧ ev :: q.2 = evs := by simpa using h'
            subst hr
            subst hev
            have IH := feedLoop_append (a.drop (4 + fromBytesBE (a.take 4))) b
              q.1 q.2 (by rw [hrec])
            rw [IH]
            cases hlast : feedLoop (q.1 ++ b) <;> simp [Except.map]
termination_by a.length
decreasing_by
  all_goals simp [List.length_drop]; omega

/-- Streaming error persistence: when the loop raises on `a`, it raises
identically on `a ++ b` (the head frames are the same). -/
theorem feedLoop_error_append (a b : List Nat) (err : ParseErr)
    (h : feedLoop a = Except.error err) :
    feedLoop (a ++ b) = Except.error err := by
  by_cases h1 : a.length < 4
  · rw [feedLoop_short a h1] at h
    simp at h
  · by_cases h2 : a.length < 4 + fromBytesBE (a.take 4)
    · rw [feedLoop_incomplete a h1 h2] at h
      simp at h
    · have ha4 : 4 ≤ a.length := Nat.le_of_not_lt h1
      have hflen : 4 + fromBytesBE (a.take 4) ≤ a.length := Nat.le_of_not_lt h2
      have htake : (a ++ b).take 4 = a.take 4 :=
        List.take_append_of_le_length ha4
      have hdrop4 : (a ++ b).drop 4 = a.drop 4 ++ b :=
        List.drop_append_of_le_length ha4
      have hpay : ((a ++ b).drop 4).take (fromBytesBE ((a ++ b).take 4)) =
          (a.drop 4).take (fromBytesBE (a.take 4)) := by
        rw [htake, hdrop4,
          List.take_append_of_le_length (by simp [List.length_drop]; omega)]
      have hrest : (a ++ b).drop (4 + fromBytesBE ((a ++ b).take 4)) =
          a.drop (4 + fromBytesBE (a.take 4)) ++ b := by
        rw [htake, List.drop_append_of_le_length hflen]
      have h1' : ¬ (a ++ b).length < 4 := by simp [List.length_append]; omega
      have h2' : ¬ (a ++ b).length < 4 + fromBytesBE ((a ++ b).take 4) := by
        rw [htake]; simp [List.length_append]; omega
      rw [feedLoop_frame a h1 h2] at h
      rw [feedLoop_frame (a ++ b) h1' h2']
      simp only [hpay, hrest]
      cases hp : parsePayload ((a.drop 4).take (fromBytesBE (a.take 4))) with
      | error e =>
        rw [hp] at h
        exact h
      | ok oev =>
        rw [hp] at h
        cases oev with
        | none =>
          exact feedLoop_error_append (a.drop (4 + fromBytesBE (a.take 4))) b err h
        | some ev =>
          have h' : (match feedLoop (a.drop (4 + fromBytesBE (a.take 4))) with
              | Except.error e => Except.error e
              | Except.ok q => Except.ok (q.1, ev :: q.2)) =
              Except.error err := h
          clear h
          cases hrec : feedLoop (a.drop (4 + fromBytesBE (a.take 4))) with
          | error e =>
            rw [hrec] at h'
            simp at h'
            subst h'
            rw [feedLoop_error_append (a.drop (4 + fromBytesBE (a.take 4))) b e hrec]
          | ok q =>
            rw [hrec] at h'
            simp at h'
termination_by a.length
decreasing_by
  all_goals simp [List.length_drop]; omega

/-! ## C3 -/

/-- C3 counterexample: on the stream good-frame ++ bad-numeric-frame, a
single whole-stream feed raises (returning no events at all), while
feeding the two frames separately first returns the good-frame event and
only then raises: the totals differ, so the unrestricted splitting claim
fails on streams containing an undecodable frame. -/
theorem c3_counterexample :
    feed [] (goodMoveFrame ++ badNumericFrame) = Except.error ParseErr.valueError ∧
    feed [] goodMoveFrame =
      Except.ok ([], [SynergyEvent.mouseMove ⟨1, 2, true⟩]) ∧
    feed [] badNumericFrame = Except.error ParseErr.valueError := by
  exact ⟨by decide, by decide, by decide⟩

/-- C3 (amended): for every byte stream on which a single whole-stream
feed succeeds and every split point, feeding the two pieces to a fresh
parser in two successive feed calls succeeds and produces, in total,
exactly the same event sequence, with the same final buffer. -/
theorem c3_split_invariant (s : List Nat) (i : Nat) (rf : List Nat)
    (evs : List SynergyEvent) (h : feed [] s = Except.ok (rf, evs)) :
    ∃ r1 evs1 evs2,
      feed [] (s.take i) = Except.ok (r1, evs1) ∧
      feed r1 (s.drop i) = Except.ok (rf, evs2) ∧
      evs1 ++ evs2 = evs := by
  have hs : s.take i ++ s.drop i = s := List.take_append_drop i s
  have hfeed : feed [] s = feedLoop s := by simp [feed]
  rw [hfeed] at h
  cases hfa : feedLoop (s.take i) with
  | error e =>
    have hcontra := feedLoop_error_append (s.take i) (s.drop i) e hfa
    rw [hs] at hcontra
    rw [hcontra] at h
    simp at h
  | ok p =>
    obtain ⟨p1, p2⟩ := p
    have key := feedLoop_append (s.take i) (s.drop i) p1 p2 hfa
    rw [hs] at key
    rw [key] at h
    cases hrb : feedLoop (p1 ++ s.drop i) with
    | error e =>
      rw [hrb] at h
      simp [Except.map] at h
    | ok q =>
      obtain ⟨q1, q2⟩ := q
      rw [hrb] at h
      simp only [Except.map, Except.ok.injEq, Prod.mk.injEq] at h
      obtain ⟨hr, hev⟩ := h
      subst hr
      refine ⟨p1, p2, q2, by simp [feed, hfa], ?_, hev⟩
      simpa [feed] using hrb

/-- C3 witness. -/
theorem c3_witness :
    ∃ r1 evs1 evs2,
      feed [] (validStream.take 6) = Except.ok (r1, evs1) ∧
      feed r1 (validStream.drop 6) = Except.ok ([], evs2) ∧
      evs1 ++ evs2 =
        [SynergyEvent.mouseMove ⟨1, 2, true⟩,
         SynergyEvent.screenTransition ⟨"primary", true⟩] :=
  c3_split_invariant validStream 6 []
    [SynergyEvent.mouseMove ⟨1, 2, true⟩,
     SynergyEvent.screenTransition ⟨"primary", true⟩] (by decide)

/-! ## C6 -/

set_option maxRecDepth 100000 in
/-- C6 counterexample: at value 1, source range 0..3 and target range
0..10^17 (a legal HID coordinate range: ints with max above min) the
binary64 arithmetic of the source yields 33333333333333332 - the double
product (1/3) * 1e17 lies in [2^54, 2^55), where the grid unit is 4 -
while the formula of the claim rounds the exact 10^17/3 to
33333333333333333, which clamping does not change; the two differ, so
the universal exact-rounding formula is false of the program. -/
theorem c6_counterexample :
    scale_axis_f64 1 0 3 0 100000000000000000 =
      Except.ok 33333333333333332 ∧
    pyRound ((0 : ℚ) +
        ((1 : ℚ) - 0) / ((3 : ℚ) - 0) * ((100000000000000000 : ℚ) - 0)) =
      33333333333333333 ∧
    max (min (33333333333333333 : Int) 100000000000000000) 0 =
      33333333333333333 ∧
    (33333333333333332 : Int) ≠ 33333333333333333 := by
  refine ⟨by decide, ?_, by decide, by decide⟩
  rw [pyRound]
  norm_num

set_option maxRecDepth 100000 in
/-- C6 (amended): the rescaling of `_scale_axis` is computed in IEEE
binary64 arithmetic; the degenerate srcMax = srcMin case always maps to
targetMin, every successful result is clamped into
[targetMin, targetMax], and the exact formula round(targetMin +
(v - srcMin) / (srcMax - srcMin) * (targetMax - targetMin)) describes
it only when the double arithmetic is exact enough at the magnitudes
involved (it can fail for spans at and beyond 2^53). In particular,
feeding the frame DMMV 1024 768 through the parser and a fresh
absolute-mode translator over one screen primary at (0, 0) sized
1920x1080 with the default HID range 0..32767 yields
ScreenEdge(primary, entered) followed by one absolute pointer report at
(17485, 23323): the binary64 computation and the exact formula agree
there, with round(1024/1919*32767) = 17485 and
round(768/1079*32767) = 23323. -/
theorem c6_scale_axis_binary64 :
    (∀ value source_min target_min target_max : Int,
      scale_axis_f64 value source_min source_min target_min target_max =
        Except.ok target_min) ∧
    (∀ value source_min source_max target_min target_max result : Int,
      target_min ≤ target_max →
      scale_axis_f64 value source_min source_max target_min target_max =
        Except.ok result →
      target_min ≤ result ∧ result ≤ target_max) ∧
    scale_axis_f64 1024 0 1919 0 32767 = Except.ok 17485 ∧
    scale_axis_f64 768 0 1079 0 32767 = Except.ok 23323 ∧
    pyRound ((1024 : ℚ) / 1919 * 32767) = 17485 ∧
    pyRound ((768 : ℚ) / 1079 * 32767) = 23323 ∧
    feed [] dmmvFrame =
      Except.ok ([], [SynergyEvent.mouseMove ⟨1024, 768, true⟩]) ∧
    mkSynergyTranslator demoConfig true = Except.ok demoTranslator ∧
    (demoTranslator.translate (SynergyEvent.mouseMove ⟨1024, 768, true⟩)).2 =
      [TranslatorOutput.event (SynergyEvent.screenTransition ⟨"primary", true⟩),
       TranslatorOutput.pointer ⟨17485, 23323, true⟩] := by
  refine ⟨?_, ?_, by decide, by decide, ?_, ?_, by decide, by decide, ?_⟩
  · intro v sm tm tM
    unfold scale_axis_f64
    rw [if_pos rfl]
  · intro v sm sM tm tM result hle h
    unfold scale_axis_f64 at h
    split at h
    · simp only [Except.ok.injEq] at h
      subst h
      omega
    · split at h
      · simp at h
      · split at h
        · simp at h
        · split at h
          · simp at h
          · split at h
            · simp at h
            · simp only [Except.ok.injEq] at h
              subst h
              omega
  · rw [pyRound]; norm_num
  · rw [pyRound]; norm_num
  · have e1 : scale_axis 1024 0 1919 0 32767 = 17485 := by
      rw [scale_axis, pyRound]; norm_num
    have e2 : scale_axis 768 0 1079 0 32767 = 23323 := by
      rw [scale_axis, pyRound]; norm_num
    have hm1 : max (1 : Int) (1920 - 1) = 1919 := by omega
    have hm2 : max (1 : Int) (1080 - 1) = 1079 := by omega
    have hmap : primaryScreen.map_to_hid 1024 768 defaultHidRange = (17485, 23323) := by
      rw [ScreenLayout.map_to_hid]
      norm_num [primaryScreen, defaultHidRange, hm1, hm2, e1, e2]
    have hnorm : demoTranslator.normalize_position ⟨1024, 768, true⟩ = (1024, 768) := by
      decide
    have hfind : demoTranslator.find_screen 1024 768 = some primaryScreen := by decide
    have hcur : demoTranslator.current_screen = none := rfl
    have huse : demoTranslator.use_absolute = true := rfl
    have hhid : demoTranslator.config.hid_range = defaultHidRange := rfl
    have hname : primaryScreen.name = "primary" := rfl
    simp [SynergyTranslator.translate, SynergyTranslator.translate_mouse_move,
      hnorm, hfind, hcur, huse, hhid, hmap, hname]

set_option maxRecDepth 100000 in
/-- C6 witness. -/
theorem c6_witness :
    scale_axis_f64 5 0 9 0 100 = Except.ok 56 ∧
    (0 : Int) ≤ 56 ∧ (56 : Int) ≤ 100 :=
  ⟨by decide, c6_scale_axis_binary64.2.1 5 0 9 0 100 56 (by decide) (by decide)⟩

/-- C5 witness. -/
theorem c5_witness :
    ∃ pe : HidPointerEvent,
      ((⟨disjointConfig, true, some screenA, none⟩ :
          SynergyTranslator).translate_mouse_move ⟨12, 5, true⟩).2 =
        [TranslatorOutput.event (SynergyEvent.screenTransition ⟨screenA.name, false⟩),
         TranslatorOutput.event (SynergyEvent.screenTransition ⟨screenD.name, true⟩),
         TranslatorOutput.pointer pe] :=
  c5_first_match_transitions.1 ⟨disjointConfig, true, some screenA, none⟩
    ⟨12, 5, true⟩ screenA screenD rfl (by decide) (by decide)

end SynergyBridge
